import Mathlib

/-!
Verification of the `pyeventlogging` library (`src/eventlogging.py`): a shallow
embedding of its data model (datetimes, correlation ids, events, the JSON
encoder) together with proofs of the specified properties.

Python values are modelled as follows: Python `str` is `String`, Python
`None`-or-`str` is `Option String`, `datetime.datetime` is the `Datetime`
structure below, thread-local storage is an explicit map from a thread
identifier to the stored value, and exceptions raised by encoding are an
explicit `Except` result.
-/

namespace EventLogging

/-! ## Datetimes and ISO-8601 formatting

`datetime.datetime` is modelled by its validated fields.  The constructor of
the Python class rejects out-of-range fields, so range facts appear as
hypotheses of the theorems.  `tzoffset` is the UTC offset in whole minutes
(`none` for a naive datetime); `datetime.timezone` only admits offsets
strictly between -24h and +24h. -/

structure Datetime where
  year : Nat
  month : Nat
  day : Nat
  hour : Nat
  minute : Nat
  second : Nat
  microsecond : Nat
  tzoffset : Option Int
deriving DecidableEq, Repr

/-- The decimal digit character for `k` (only used with `k < 10`), as in
zero-padded `%0Nd` formatting. -/
def digitChar (k : Nat) : Char := Char.ofNat (48 + k)

/-- Value of a decimal digit character, `none` on a non-digit. -/
def digitVal (c : Char) : Option Nat :=
  let n := c.toNat
  if 48 ≤ n ∧ n ≤ 57 then some (n - 48) else none

/-- `%02d` of a field already validated to be `< 100`. -/
def pad2 (n : Nat) : List Char := [digitChar (n / 10), digitChar (n % 10)]

/-- `%04d` of a field already validated to be `< 10000`. -/
def pad4 (n : Nat) : List Char :=
  [digitChar (n / 1000), digitChar (n / 100 % 10), digitChar (n / 10 % 10), digitChar (n % 10)]

/-- `%06d` of a field already validated to be `< 1000000`. -/
def pad6 (n : Nat) : List Char :=
  [digitChar (n / 100000), digitChar (n / 10000 % 10), digitChar (n / 1000 % 10),
   digitChar (n / 100 % 10), digitChar (n / 10 % 10), digitChar (n % 10)]

/-- The characters of `datetime.isoformat()`: `YYYY-MM-DDTHH:MM:SS`, the
six-digit fraction when `microsecond` is non-zero, and the `±HH:MM` offset
when the datetime is timezone-aware. -/
def Datetime.isoChars (d : Datetime) : List Char :=
  pad4 d.year ++ '-' :: pad2 d.month ++ '-' :: pad2 d.day ++ 'T' ::
  pad2 d.hour ++ ':' :: pad2 d.minute ++ ':' :: pad2 d.second ++
  (if d.microsecond = 0 then [] else '.' :: pad6 d.microsecond) ++
  (match d.tzoffset with
   | none => []
   | some off =>
     (if off < 0 then '-' else '+') :: pad2 (off.natAbs / 60) ++ ':' :: pad2 (off.natAbs % 60))

/-- `datetime.isoformat()` as a string. -/
def Datetime.isoformat (d : Datetime) : String := String.mk d.isoChars

/-- Read two decimal digits. -/
def read2 : List Char → Option (Nat × List Char)
  | a :: b :: rest => do
    let x ← digitVal a
    let y ← digitVal b
    some (10 * x + y, rest)
  | _ => none

/-- Read four decimal digits. -/
def read4 : List Char → Option (Nat × List Char)
  | a :: b :: c :: d :: rest => do
    let x ← digitVal a
    let y ← digitVal b
    let z ← digitVal c
    let w ← digitVal d
    some (1000 * x + 100 * y + 10 * z + w, rest)
  | _ => none

/-- Read six decimal digits. -/
def read6 : List Char → Option (Nat × List Char)
  | a :: b :: c :: d :: e :: f :: rest => do
    let x ← digitVal a
    let y ← digitVal b
    let z ← digitVal c
    let w ← digitVal d
    let v ← digitVal e
    let u ← digitVal f
    some (100000 * x + 10000 * y + 1000 * z + 100 * w + 10 * v + u, rest)
  | _ => none

/-- Expect a literal character. -/
def expectChar (c : Char) : List Char → Option (List Char)
  | x :: rest => if x = c then some rest else none
  | [] => none

/-- Read the optional `.ffffff` fraction. -/
def readFraction : List Char → Option (Nat × List Char)
  | '.' :: rest => read6 rest
  | s => some (0, s)

/-- Read the optional `±HH:MM` UTC offset. -/
def readOffset : List Char → Option (Option Int × List Char)
  | '+' :: rest => do
    let (h, rest) ← read2 rest
    let rest ← expectChar ':' rest
    let (m, rest) ← read2 rest
    some (some ((h * 60 + m : Nat) : Int), rest)
  | '-' :: rest => do
    let (h, rest) ← read2 rest
    let rest ← expectChar ':' rest
    let (m, rest) ← read2 rest
    some (some (-((h * 60 + m : Nat) : Int)), rest)
  | [] => some (none, [])
  | _ => none

/-- An ISO-8601 reader for the profile emitted by `datetime.isoformat()`
(`datetime.fromisoformat` accepts exactly the output of `isoformat`). -/
def parseIsoChars (s : List Char) : Option Datetime := do
  let (y, s) ← read4 s
  let s ← expectChar '-' s
  let (mo, s) ← read2 s
  let s ← expectChar '-' s
  let (da, s) ← read2 s
  let s ← expectChar 'T' s
  let (h, s) ← read2 s
  let s ← expectChar ':' s
  let (mi, s) ← read2 s
  let s ← expectChar ':' s
  let (se, s) ← read2 s
  let (us, s) ← readFraction s
  let (off, s) ← readOffset s
  if s = [] then some ⟨y, mo, da, h, mi, se, us, off⟩ else none

/-- `datetime.fromisoformat` on strings produced by `isoformat`. -/
def Datetime.fromisoformat (s : String) : Option Datetime := parseIsoChars s.data

/-! ## CorrelationID

`CorrelationID` stores one optional string per thread
(`class LocalWithValueField(threading.local)` with `self.value = None` run on
first access from each thread).  The thread-local cell is modelled as an
explicit map from a thread identifier to the stored `Option String`; the
instance itself carries only the injected generator.  `generate_id` is a
zero-argument callable; one invocation's return value is modelled as the
field `gen` (an `Option String`, since a Python callable annotated `-> str`
may still return `None`). -/

/-- Identity of an execution context (a thread). -/
abbrev ThreadId := Nat

/-- The per-thread contents of `CorrelationID.correlation_id.value`:
`threading.local` runs `__init__` (setting `value = None`) on first access
from each thread, so every thread starts at `none`. -/
abbrev LocalWithValueField := ThreadId → Option String

/-- The state every thread starts from: `value = None` everywhere. -/
def LocalWithValueField.init : LocalWithValueField := fun _ => none

/-- Assignment `self.correlation_id.value = v` executed by thread `t`. -/
def LocalWithValueField.store (st : LocalWithValueField) (t : ThreadId)
    (v : Option String) : LocalWithValueField :=
  fun u => if u = t then v else st u

structure CorrelationID where
  gen : Option String
deriving DecidableEq

/-- Python truthiness of a `str | None` value: `None` and `""` are falsy. -/
def pyTruthy : Option String → Bool
  | none => false
  | some s => s ≠ ""

/-- `CorrelationID.set`: `self.correlation_id.value = value or self.generate_id()`
executed by thread `t`.  Returns the updated thread-local map together with
the number of times the generator was invoked by this call. -/
def CorrelationID.set (cid : CorrelationID) (value : Option String) (t : ThreadId)
    (st : LocalWithValueField) : LocalWithValueField × Nat :=
  if pyTruthy value then (st.store t value, 0) else (st.store t cid.gen, 1)

/-- `CorrelationID.get`: `return self.correlation_id.value` in thread `t`. -/
def CorrelationID.get (st : LocalWithValueField) (t : ThreadId) : Option String :=
  st t

/-- `CorrelationID.reset`: `self.correlation_id.value = None` in thread `t`. -/
def CorrelationID.reset (st : LocalWithValueField) (t : ThreadId) : LocalWithValueField :=
  st.store t none

/-- The operations a thread can perform on a `CorrelationID`. -/
inductive CidOp where
  | setOp (value : Option String)
  | resetOp
deriving DecidableEq

/-- Effect of one operation run by thread `t`. -/
def CidOp.apply (cid : CorrelationID) (op : CidOp) (t : ThreadId)
    (st : LocalWithValueField) : LocalWithValueField :=
  match op with
  | .setOp v => (cid.set v t st).1
  | .resetOp => CorrelationID.reset st t

/-- Run a sequence of operations, each tagged with the thread performing it. -/
def runOps (cid : CorrelationID) (ops : List (CidOp × ThreadId))
    (st : LocalWithValueField) : LocalWithValueField :=
  match ops with
  | [] => st
  | (op, t) :: rest => runOps cid rest (op.apply cid t st)

/-! ## Exceptions and stack traces

A caught Python exception is an opaque platform value; what the encoder uses
of it is `traceback.TracebackException.from_exception(exc).format()`, an
iterator of lines that includes any chained (`__cause__`/`__context__`)
exceptions.  The exception is modelled by that list of formatted lines. -/

structure PyException where
  formatLines : List String
deriving DecidableEq

/-- `traceback.TracebackException.from_exception(exception).format()`:
modelled as the formatted lines the platform produces for the exception,
chained causes included. -/
def TracebackException.format (exc : PyException) : List String :=
  exc.formatLines

/-- `extract_stacktrace`: `"".join(traceback.TracebackException.from_exception(exception).format())`. -/
def extract_stacktrace (exception : PyException) : String :=
  String.join (TracebackException.format exception)

/-! ## The value model

Values that can appear in an event's fields (and in the metadata envelope):
the JSON-native Python values, plus `datetime.datetime` and exceptions
(handled by `JSONEncoder.default`), plus values of any other type, for which
`json.JSONEncoder.default` raises `TypeError` — the spec's EncodingError.
`pyFloat` is omitted: no claim exercises float formatting. -/

inductive PyVal where
  | pyNone
  | pyBool (b : Bool)
  | pyInt (n : Int)
  | pyStr (s : String)
  | pyList (xs : List PyVal)
  | pyDict (kvs : List (String × PyVal))
  | pyDatetime (d : Datetime)
  | pyExc (e : PyException)
  | pyOther (typeName : String)

/-- The JSON documents `json.dumps` can emit for the values above. -/
inductive JVal where
  | null
  | bool (b : Bool)
  | int (n : Int)
  | str (s : String)
  | arr (xs : List JVal)
  | obj (kvs : List (String × JVal))

/-- The `TypeError` that `json.JSONEncoder.default` raises for a value with
no serialization rule — the spec's `EncodingError`. -/
structure EncodingError where
  typeName : String
deriving DecidableEq

/-- `JSONEncoder.default`: `datetime` → `obj.isoformat()`, `Exception` →
`extract_stacktrace(obj)`, anything else → `TypeError` from
`json.JSONEncoder.default`. -/
def JSONEncoder.default : PyVal → Except EncodingError PyVal
  | .pyDatetime d => .ok (.pyStr d.isoformat)
  | .pyExc e => .ok (.pyStr (extract_stacktrace e))
  | .pyOther t => .error ⟨t⟩
  | v => .ok v

/-! Conversion of a Python value to the JSON document `json.dumps` writes:
JSON-native values pass through, containers recurse, everything else goes
through `JSONEncoder.default` (whose result here is always a string). -/

mutual

def toJVal : PyVal → Except EncodingError JVal
  | .pyNone => .ok .null
  | .pyBool b => .ok (.bool b)
  | .pyInt n => .ok (.int n)
  | .pyStr s => .ok (.str s)
  | .pyList xs => do
    let ys ← toJValList xs
    .ok (.arr ys)
  | .pyDict kvs => do
    let ys ← toJValDict kvs
    .ok (.obj ys)
  | .pyDatetime d =>
    match JSONEncoder.default (.pyDatetime d) with
    | .ok (.pyStr s) => .ok (.str s)
    | _ => .error ⟨"datetime"⟩
  | .pyExc e =>
    match JSONEncoder.default (.pyExc e) with
    | .ok (.pyStr s) => .ok (.str s)
    | _ => .error ⟨"Exception"⟩
  | .pyOther t =>
    match JSONEncoder.default (.pyOther t) with
    | .error err => .error err
    | _ => .error ⟨t⟩

def toJValList : List PyVal → Except EncodingError (List JVal)
  | [] => .ok []
  | x :: xs => do
    let y ← toJVal x
    let ys ← toJValList xs
    .ok (y :: ys)

def toJValDict : List (String × PyVal) → Except EncodingError (List (String × JVal))
  | [] => .ok []
  | (k, v) :: kvs => do
    let y ← toJVal v
    let ys ← toJValDict kvs
    .ok ((k, y) :: ys)

end

/-! ## JSON text output

`json.dumps` is called with its defaults: `ensure_ascii=True`, `indent=None`,
`separators=None` — hence item separator `", "` and key separator `": "`,
and every character outside `0x20..0x7e` escaped (`\uXXXX`, a surrogate pair
for astral characters; lowercase hex). -/

/-- The lowercase hexadecimal digit character for `k` (only used with
`k < 16`), as `%04x` emits. -/
def hexChar (k : Nat) : Char :=
  if k < 10 then Char.ofNat (48 + k) else Char.ofNat (87 + k)

/-- Value of a hexadecimal digit character (`json.loads` accepts both cases). -/
def hexDigitVal (c : Char) : Option Nat :=
  let n := c.toNat
  if 48 ≤ n ∧ n ≤ 57 then some (n - 48)
  else if 97 ≤ n ∧ n ≤ 102 then some (n - 87)
  else if 65 ≤ n ∧ n ≤ 70 then some (n - 55)
  else none

/-- `%04x` of a code unit `< 0x10000`. -/
def hex4 (n : Nat) : List Char :=
  [hexChar (n / 4096 % 16), hexChar (n / 256 % 16), hexChar (n / 16 % 16), hexChar (n % 16)]

/-- Escape of one character, per `json.encoder.py_encode_basestring_ascii`:
the named short escapes, `\u00xx` for other control characters, `\uxxxx`
for non-ASCII characters (as a surrogate pair beyond the BMP), the
character itself otherwise. -/
def escChar (c : Char) : List Char :=
  if c = '"' then ['\\', '"']
  else if c = '\\' then ['\\', '\\']
  else if c = '\n' then ['\\', 'n']
  else if c = '\r' then ['\\', 'r']
  else if c = '\t' then ['\\', 't']
  else if c.toNat = 8 then ['\\', 'b']
  else if c.toNat = 12 then ['\\', 'f']
  else if c.toNat < 0x20 ∨ 0x7e < c.toNat then
    if c.toNat < 0x10000 then
      '\\' :: 'u' :: hex4 c.toNat
    else
      '\\' :: 'u' :: hex4 (0xd800 + (c.toNat - 0x10000) / 0x400) ++
      '\\' :: 'u' :: hex4 (0xdc00 + (c.toNat - 0x10000) % 0x400)
  else [c]

/-- The characters of the JSON string literal for `s`, quotes included. -/
def encodeBasestringAscii (s : String) : List Char :=
  '"' :: s.data.flatMap escChar ++ ['"']

/-- Decode of a two-character short escape: `\"`, `\\\\` and `\/` map to
themselves, the named controls to their control characters. -/
def escCode (e : Char) : Option Char :=
  if e = '"' ∨ e = '\\' ∨ e = '/' then some e
  else if e = 'n' then some '\n'
  else if e = 't' then some '\t'
  else if e = 'r' then some '\r'
  else if e = 'b' then some (Char.ofNat 8)
  else if e = 'f' then some (Char.ofNat 12)
  else none

/-- Value of a four-digit hex escape body. -/
def hex4Val (a b c d : Char) : Option Nat := do
  let x ← hexDigitVal a
  let y ← hexDigitVal b
  let z ← hexDigitVal c
  let w ← hexDigitVal d
  some (4096 * x + 256 * y + 16 * z + w)

/-- The code units a JSON encoder emits for one character: the character's
code point for the basic plane, a surrogate pair beyond it. -/
def unitsOf (c : Char) : List Nat :=
  if c.toNat < 65536 then [c.toNat]
  else [55296 + (c.toNat - 65536) / 1024, 56320 + (c.toNat - 65536) % 1024]

/-- First stage of a standard JSON string-body decoder: turn backslash
escapes and literal characters into UTF-16 code units. -/
def unescUnits : List Char → Option (List Nat)
  | [] => some []
  | c :: rest =>
    if c = '\\' then
      match rest with
      | 'u' :: a :: b :: c2 :: d :: rest2 =>
        (hex4Val a b c2 d).bind fun n => (unescUnits rest2).map (n :: ·)
      | e :: rest2 => (escCode e).bind fun ch => (unescUnits rest2).map (ch.toNat :: ·)
      | [] => none
    else (unescUnits rest).map (c.toNat :: ·)

/-- Second stage of the decoder: pair up surrogates, reject lone ones. -/
def combineSurrogates : List Nat → Option (List Char)
  | [] => some []
  | n :: rest =>
    if 55296 ≤ n ∧ n < 56320 then
      match rest with
      | m :: rest2 =>
        if 56320 ≤ m ∧ m < 57344 then
          (combineSurrogates rest2).map
            (Char.ofNat (65536 + (n - 55296) * 1024 + (m - 56320)) :: ·)
        else none
      | [] => none
    else if 56320 ≤ n ∧ n < 57344 then none
    else (combineSurrogates rest).map (Char.ofNat n :: ·)

/-- Inverse of character escaping: a standard JSON string-body decoder
(backslash escapes, `\uXXXX`, surrogate pairs). -/
def unescChars (s : List Char) : Option (List Char) :=
  (unescUnits s).bind combineSurrogates

/-- Interpose a separator between the strings of a list. -/
def joinSep (sep : String) : List String → String
  | [] => ""
  | [x] => x
  | x :: xs => x ++ sep ++ joinSep sep xs

mutual

/-- `json.dumps` of a JSON document with the default separators
`(", ", ": ")` and `ensure_ascii=True`. -/
def jdump : JVal → String
  | .null => "null"
  | .bool true => "true"
  | .bool false => "false"
  | .int n => toString n
  | .str s => String.mk (encodeBasestringAscii s)
  | .arr xs => "[" ++ joinSep ", " (jdumpList xs) ++ "]"
  | .obj kvs => "\x7b" ++ joinSep ", " (jdumpDict kvs) ++ "\x7d"

def jdumpList : List JVal → List String
  | [] => []
  | x :: xs => jdump x :: jdumpList xs

def jdumpDict : List (String × JVal) → List String
  | [] => []
  | (k, v) :: kvs =>
    (String.mk (encodeBasestringAscii k) ++ ": " ++ jdump v) :: jdumpDict kvs

end

/-- `json.dumps(obj, cls=JSONEncoder)`: convert to a JSON document (raising
for unencodable values) and render it as text. -/
def dumps (v : PyVal) : Except EncodingError String := do
  let j ← toJVal v
  .ok (jdump j)

/-! ## Events and loggers

A concrete `Event` subclass contributes its class name (`Event.type` returns
`self.__class__.__name__`) and its instance attributes (`vars(event)`, an
insertion-ordered mapping from field name to value). -/

structure Event where
  typeName : String
  fields : List (String × PyVal)

/-- `Event.type`: `return self.__class__.__name__`. -/
def Event.type (event : Event) : String := event.typeName

/-- `Clock.now()`: the datetime the injected clock returns (`SystemClock`
reads the wall clock; tests inject a fixed value). -/
structure Clock where
  now : Datetime

/-- The state `EventLogger.__init__` stores: `self.correlation_id` (which may
be `None` — the `TextStreamEventLogger` default) and `self.__clock`. -/
structure EventLogger where
  correlation_id : Option CorrelationID
  clock : Clock

/-- The metadata dict built by `EventLogger.asJson`: `timestamp` and `type`,
then `correlation_id` added by `metadata.update(...)` only when
`self.correlation_id` is truthy (a `CorrelationID` instance defines neither
`__bool__` nor `__len__`, so any instance is truthy and only `None` is not). -/
def EventLogger.metadataOf (logger : EventLogger) (event : Event)
    (st : LocalWithValueField) (t : ThreadId) : List (String × PyVal) :=
  [("timestamp", .pyDatetime logger.clock.now), ("type", .pyStr event.type)] ++
  (match logger.correlation_id with
   | none => []
   | some _ =>
     [("correlation_id",
       match CorrelationID.get st t with
       | none => PyVal.pyNone
       | some s => PyVal.pyStr s)])

/-- `EventLogger.asJson`: `{"metadata": metadata, "event": vars(event)}`,
with the thread-local state of the configured `CorrelationID` (if any) read
from thread `t`. -/
def EventLogger.asJson (logger : EventLogger) (event : Event)
    (st : LocalWithValueField) (t : ThreadId) : PyVal :=
  .pyDict [("metadata", .pyDict (logger.metadataOf event st t)),
           ("event", .pyDict event.fields)]

/-- `TextStreamEventLogger.log`:
`print(json.dumps(self.asJson(event), cls=JSONEncoder), file=self.__output)`
— on success the sink receives the dumped text plus the `"\n"` line end;
a `TypeError` raised while building the argument propagates to the caller
and nothing is written. -/
def TextStreamEventLogger.log (logger : EventLogger) (event : Event)
    (st : LocalWithValueField) (t : ThreadId) (output : String) :
    Except EncodingError String :=
  match dumps (logger.asJson event st t) with
  | .ok line => .ok (output ++ line ++ "\n")
  | .error err => .error err

/-- The full post-state of a `log` call: the sink result, the event, and the
logger, the latter two threaded through explicitly because the body of `log`
(and of `asJson`, which it calls) only reads them — no statement assigns to
an attribute of `event` or of `self`. -/
def TextStreamEventLogger.logFull (logger : EventLogger) (event : Event)
    (st : LocalWithValueField) (t : ThreadId) (output : String) :
    Except EncodingError String × Event × EventLogger :=
  (TextStreamEventLogger.log logger event st t output, event, logger)

/-! ## The concrete scenario of the spec's worked example -/

/-- The fixed test clock instant `2021-05-01T11:22:33.001234+00:00`. -/
def testDatetime : Datetime :=
  { year := 2021, month := 5, day := 1, hour := 11, minute := 22, second := 33,
    microsecond := 1234, tzoffset := some 0 }

/-- A logger with the fixed clock and no `CorrelationID` configured. -/
def testLogger : EventLogger :=
  { correlation_id := none, clock := { now := testDatetime } }

/-- `TestEvent(value="str")`. -/
def testEvent : Event :=
  { typeName := "TestEvent", fields := [("value", .pyStr "str")] }

/-- The field ranges enforced by `datetime.datetime`'s constructor
(`MINYEAR..MAXYEAR`, calendar ranges, microseconds, and `datetime.timezone`'s
strict ±24h bound on offsets, which are whole numbers of minutes here). -/
def Datetime.validRange (d : Datetime) : Bool :=
  decide (1 ≤ d.year) && decide (d.year ≤ 9999) &&
  decide (1 ≤ d.month) && decide (d.month ≤ 12) &&
  decide (1 ≤ d.day) && decide (d.day ≤ 31) &&
  decide (d.hour < 24) && decide (d.minute < 60) && decide (d.second < 60) &&
  decide (d.microsecond < 1000000) &&
  (match d.tzoffset with
   | none => true
   | some o => decide (o.natAbs < 1440))

/-- The line the spec's worked example claims is written, byte for byte:
compact separators, no space after `:` or `,`. -/
def claimedExampleLine : String :=
  "\x7b\"metadata\":\x7b\"timestamp\":\"2021-05-01T11:22:33.001234+00:00\",\"type\":\"TestEvent\"\x7d,\"event\":\x7b\"value\":\"str\"\x7d\x7d\n"

/-- The line the code actually writes for the worked example: `json.dumps`
is called with its default separators `(", ", ": ")`. -/
def actualExampleLine : String :=
  "\x7b\"metadata\": \x7b\"timestamp\": \"2021-05-01T11:22:33.001234+00:00\", \"type\": \"TestEvent\"\x7d, \"event\": \x7b\"value\": \"str\"\x7d\x7d\n"

/-! ## Decimal digit and field-reading lemmas -/

theorem digitVal_digitChar {k : Nat} (h : k < 10) : digitVal (digitChar k) = some k := by
  interval_cases k <;> rfl

theorem read2_pad2 {n : Nat} (h : n < 100) (r : List Char) :
    read2 (pad2 n ++ r) = some (n, r) := by
  have h1 : n / 10 < 10 := by omega
  have h2 : n % 10 < 10 := by omega
  simp only [pad2, List.cons_append, List.nil_append, read2,
    digitVal_digitChar h1, digitVal_digitChar h2,
    Option.pure_def, bind, Option.some_bind]
  have key : 10 * (n / 10) + n % 10 = n := by omega
  rw [key]

theorem read4_pad4 {n : Nat} (h : n < 10000) (r : List Char) :
    read4 (pad4 n ++ r) = some (n, r) := by
  have h1 : n / 1000 < 10 := by omega
  have h2 : n / 100 % 10 < 10 := by omega
  have h3 : n / 10 % 10 < 10 := by omega
  have h4 : n % 10 < 10 := by omega
  simp only [pad4, List.cons_append, List.nil_append, read4,
    digitVal_digitChar h1, digitVal_digitChar h2, digitVal_digitChar h3,
    digitVal_digitChar h4, Option.pure_def, bind, Option.some_bind]
  have key : 1000 * (n / 1000) + 100 * (n / 100 % 10) + 10 * (n / 10 % 10) + n % 10 = n := by
    omega
  rw [key]

theorem read6_pad6 {n : Nat} (h : n < 1000000) (r : List Char) :
    read6 (pad6 n ++ r) = some (n, r) := by
  have h1 : n / 100000 < 10 := by omega
  have h2 : n / 10000 % 10 < 10 := by omega
  have h3 : n / 1000 % 10 < 10 := by omega
  have h4 : n / 100 % 10 < 10 := by omega
  have h5 : n / 10 % 10 < 10 := by omega
  have h6 : n % 10 < 10 := by omega
  simp only [pad6, List.cons_append, List.nil_append, read6,
    digitVal_digitChar h1, digitVal_digitChar h2, digitVal_digitChar h3,
    digitVal_digitChar h4, digitVal_digitChar h5, digitVal_digitChar h6,
    Option.pure_def, bind, Option.some_bind]
  have key : 100000 * (n / 100000) + 10000 * (n / 10000 % 10) + 1000 * (n / 1000 % 10) +
      100 * (n / 100 % 10) + 10 * (n / 10 % 10) + n % 10 = n := by omega
  rw [key]

theorem expectChar_cons (c : Char) (r : List Char) : expectChar c (c :: r) = some r := by
  simp [expectChar]

theorem readFraction_nil : readFraction [] = some (0, []) := rfl

theorem readFraction_dot (r : List Char) : readFraction ('.' :: r) = read6 r := rfl

theorem readFraction_plus (r : List Char) : readFraction ('+' :: r) = some (0, '+' :: r) := rfl

theorem readFraction_neg (r : List Char) : readFraction ('-' :: r) = some (0, '-' :: r) := rfl

theorem readOffset_nonneg (a : Nat) (hb : a < 1440) :
    readOffset ('+' :: (pad2 (a / 60) ++ ':' :: pad2 (a % 60))) = some (some (a : Int), []) := by
  have h1 : a / 60 < 100 := by omega
  have h2 : a % 60 < 100 := by omega
  have e1 : (pad2 (a % 60) : List Char) = pad2 (a % 60) ++ [] := (List.append_nil _).symm
  have key : ((a / 60 * 60 + a % 60 : Nat) : Int) = (a : Int) := by omega
  rw [readOffset, read2_pad2 h1]
  simp only [bind, Option.some_bind, expectChar_cons]
  rw [e1, read2_pad2 h2]
  simp only [bind, Option.some_bind, key]

theorem readOffset_negative (a : Nat) (hb : a < 1440) :
    readOffset ('-' :: (pad2 (a / 60) ++ ':' :: pad2 (a % 60))) =
      some (some (-(a : Int)), []) := by
  have h1 : a / 60 < 100 := by omega
  have h2 : a % 60 < 100 := by omega
  have e1 : (pad2 (a % 60) : List Char) = pad2 (a % 60) ++ [] := (List.append_nil _).symm
  have key : ((a / 60 * 60 + a % 60 : Nat) : Int) = (a : Int) := by omega
  rw [readOffset, read2_pad2 h1]
  simp only [bind, Option.some_bind, expectChar_cons]
  rw [e1, read2_pad2 h2]
  simp only [bind, Option.some_bind, key]

theorem parseIsoChars_isoChars (y mo da h mi se us : Nat) (tz : Option Int)
    (hy : y < 10000) (hmo : mo < 100) (hda : da < 100) (hh : h < 100)
    (hmi : mi < 100) (hse : se < 100) (hus : us < 1000000)
    (htz : ∀ o, tz = some o → o.natAbs < 1440) :
    parseIsoChars (Datetime.isoChars ⟨y, mo, da, h, mi, se, us, tz⟩) =
      some ⟨y, mo, da, h, mi, se, us, tz⟩ := by
  simp only [Datetime.isoChars, List.cons_append, List.append_assoc]
  rw [parseIsoChars]
  rw [read4_pad4 hy]
  simp only [bind, Option.some_bind, expectChar_cons]
  rw [read2_pad2 hmo]
  simp only [bind, Option.some_bind, expectChar_cons]
  rw [read2_pad2 hda]
  simp only [bind, Option.some_bind, expectChar_cons]
  rw [read2_pad2 hh]
  simp only [bind, Option.some_bind, expectChar_cons]
  rw [read2_pad2 hmi]
  simp only [bind, Option.some_bind, expectChar_cons]
  rw [read2_pad2 hse]
  simp only [bind, Option.some_bind]
  rcases tz with _ | o
  · by_cases h0 : us = 0
    · subst h0
      simp [readFraction_nil, readOffset, bind]
    · simp only [if_neg h0, List.cons_append, List.nil_append, List.append_nil,
        readFraction_dot]
      have e1 : (pad6 us : List Char) = pad6 us ++ [] := (List.append_nil _).symm
      rw [e1, read6_pad6 hus]
      simp [readOffset, bind]
  · have hb : o.natAbs < 1440 := htz o rfl
    by_cases hneg : o < 0
    · have key : -((o.natAbs : Nat) : Int) = o := by omega
      by_cases h0 : us = 0
      · subst h0
        simp [readFraction_neg, readOffset_negative o.natAbs hb, bind, if_pos hneg, key]
        rw [abs_of_neg hneg, neg_neg]
      · simp only [if_neg h0, if_pos hneg, List.cons_append, readFraction_dot]
        rw [read6_pad6 hus]
        simp [readOffset_negative o.natAbs hb, bind, key]
        rw [abs_of_neg hneg, neg_neg]
    · have key : ((o.natAbs : Nat) : Int) = o := by omega
      by_cases h0 : us = 0
      · subst h0
        simp [readFraction_plus, readOffset_nonneg o.natAbs hb, bind, if_neg hneg, key]
      · simp only [if_neg h0, if_neg hneg, List.cons_append, readFraction_dot]
        rw [read6_pad6 hus]
        simp [readOffset_nonneg o.natAbs hb, bind, key]

/-! ## Claim C7 -/

/-- C7: for every timestamp value (within the ranges `datetime.datetime`'s
constructor admits), the encoded value is an ISO-8601 string whose re-parse
recovers the original instant exactly — in particular to sub-second
precision, since the six-digit microsecond fraction is emitted whenever it
is non-zero. -/
theorem c7_timestamp_roundtrip (d : Datetime) (hd : d.validRange = true) :
    Datetime.fromisoformat d.isoformat = some d := by
  obtain ⟨y, mo, da, h, mi, se, us, tz⟩ := d
  simp only [Datetime.validRange, Bool.and_eq_true, decide_eq_true_eq] at hd
  obtain ⟨⟨⟨⟨⟨⟨⟨⟨⟨⟨h1, h2⟩, h3⟩, h4⟩, h5⟩, h6⟩, h7⟩, h8⟩, h9⟩, h10⟩, h11⟩ := hd
  refine parseIsoChars_isoChars y mo da h mi se us tz (by omega) (by omega) (by omega)
    (by omega) (by omega) (by omega) (by omega) ?_
  intro o ho
  subst ho
  simpa using h11

/-- Witness for C7 at the fixed test instant. -/
theorem c7_timestamp_roundtrip_witness :
    testDatetime.validRange = true ∧
    Datetime.fromisoformat testDatetime.isoformat = some testDatetime :=
  ⟨by decide, c7_timestamp_roundtrip testDatetime (by decide)⟩

/-! ## Claim C2 -/

/-- C2: `set(None)` and `set("")` store the generator's output (so a
subsequent `get()` in the same context returns it), while `set(v)` for a
non-empty string `v` stores `v` verbatim. -/
theorem c2_set_stores_generated_or_verbatim (cid : CorrelationID) (t : ThreadId)
    (st : LocalWithValueField) (v : String) (hv : v ≠ "") :
    CorrelationID.get (cid.set none t st).1 t = cid.gen ∧
    CorrelationID.get (cid.set (some "") t st).1 t = cid.gen ∧
    CorrelationID.get (cid.set (some v) t st).1 t = some v := by
  refine ⟨?_, ?_, ?_⟩ <;>
    simp [CorrelationID.set, CorrelationID.get, pyTruthy, LocalWithValueField.store, hv]

/-- Witness for C2 with a deterministic generator and thread 0. -/
theorem c2_set_stores_generated_or_verbatim_witness :
    CorrelationID.get ((CorrelationID.mk (some "test id")).set none 0
      LocalWithValueField.init).1 0 = some "test id" ∧
    CorrelationID.get ((CorrelationID.mk (some "test id")).set (some "") 0
      LocalWithValueField.init).1 0 = some "test id" ∧
    CorrelationID.get ((CorrelationID.mk (some "test id")).set (some "id_main") 0
      LocalWithValueField.init).1 0 = some "id_main" :=
  c2_set_stores_generated_or_verbatim ⟨some "test id"⟩ 0 LocalWithValueField.init
    "id_main" (by decide)

/-! ## Claim C3 -/

/-- C3: thread isolation of the stored value — any `set`/`reset` run by a
thread other than `b` leaves `b`'s slot unchanged, `get` reads only the
calling thread's slot, and after any sequence of operations none of which
ran on thread `b`, a `get` on `b` still observes `None`. -/
theorem c3_thread_isolation (cid : CorrelationID) (b : ThreadId) :
    (∀ (op : CidOp) (t : ThreadId) (st : LocalWithValueField),
        t ≠ b → CidOp.apply cid op t st b = st b) ∧
    (∀ (st st' : LocalWithValueField) (t : ThreadId), st t = st' t →
        CorrelationID.get st t = CorrelationID.get st' t) ∧
    (∀ ops : List (CidOp × ThreadId), (∀ p ∈ ops, p.2 ≠ b) →
        CorrelationID.get (runOps cid ops LocalWithValueField.init) b = none) := by
  have hop : ∀ (op : CidOp) (t : ThreadId) (st : LocalWithValueField),
      t ≠ b → CidOp.apply cid op t st b = st b := by
    intro op t st ht
    have htb : ¬b = t := fun hh => ht hh.symm
    cases op with
    | setOp v =>
      simp only [CidOp.apply, CorrelationID.set]
      split <;> simp [LocalWithValueField.store, htb]
    | resetOp =>
      simp [CidOp.apply, CorrelationID.reset, LocalWithValueField.store, htb]
  have hframe : ∀ (ops : List (CidOp × ThreadId)) (st : LocalWithValueField),
      (∀ p ∈ ops, p.2 ≠ b) → runOps cid ops st b = st b := by
    intro ops
    induction ops with
    | nil => intro st _; rfl
    | cons p rest ih =>
      intro st hall
      obtain ⟨op, t⟩ := p
      rw [runOps, ih _ fun q hq => hall q (List.mem_cons_of_mem _ hq)]
      exact hop op t st (hall (op, t) (List.mem_cons_self _ _))
  refine ⟨hop, ?_, ?_⟩
  · intro st st' t hsame
    simpa [CorrelationID.get] using hsame
  · intro ops hops
    show runOps cid ops LocalWithValueField.init b = none
    rw [hframe ops _ hops]
    rfl

/-- Witness for C3: thread 0 sets and thread 2 resets; thread 1 observes
`None` throughout. -/
theorem c3_thread_isolation_witness :
    CidOp.apply ⟨some "g"⟩ (.setOp (some "id_main")) 0 LocalWithValueField.init 1 = none ∧
    CorrelationID.get (runOps ⟨some "g"⟩
      [(.setOp (some "id_main"), 0), (.resetOp, 2)] LocalWithValueField.init) 1 = none := by
  have h := c3_thread_isolation ⟨some "g"⟩ 1
  exact ⟨h.1 _ 0 _ (by decide), h.2.2 _ (by decide)⟩

/-! ## Claim C10 -/

/-- C10: when the injected generator itself returns `None` or `""`,
`set(None)` / `set("")` invoke the generator exactly once, store its falsy
result as-is, and a subsequent `get()` in the same context returns that
falsy result. -/
theorem c10_falsy_generator_stored_verbatim (cid : CorrelationID) (t : ThreadId)
    (st : LocalWithValueField) (hg : pyTruthy cid.gen = false) :
    (cid.set none t st).2 = 1 ∧ (cid.set (some "") t st).2 = 1 ∧
    CorrelationID.get (cid.set none t st).1 t = cid.gen ∧
    CorrelationID.get (cid.set (some "") t st).1 t = cid.gen ∧
    pyTruthy (CorrelationID.get (cid.set none t st).1 t) = false ∧
    pyTruthy (CorrelationID.get (cid.set (some "") t st).1 t) = false := by
  have e1 : CorrelationID.get (cid.set none t st).1 t = cid.gen := by
    simp [CorrelationID.set, CorrelationID.get, pyTruthy, LocalWithValueField.store]
  have e2 : CorrelationID.get (cid.set (some "") t st).1 t = cid.gen := by
    simp [CorrelationID.set, CorrelationID.get, pyTruthy, LocalWithValueField.store]
  refine ⟨?_, ?_, e1, e2, ?_, ?_⟩
  · simp [CorrelationID.set, pyTruthy]
  · simp [CorrelationID.set, pyTruthy]
  · rw [e1]; exact hg
  · rw [e2]; exact hg

/-- Witness for C10 with a generator returning `""`. -/
theorem c10_falsy_generator_stored_verbatim_witness :
    ((CorrelationID.mk (some "")).set none 0 LocalWithValueField.init).2 = 1 ∧
    ((CorrelationID.mk (some "")).set (some "") 0 LocalWithValueField.init).2 = 1 ∧
    CorrelationID.get ((CorrelationID.mk (some "")).set none 0
      LocalWithValueField.init).1 0 = some "" ∧
    CorrelationID.get ((CorrelationID.mk (some "")).set (some "") 0
      LocalWithValueField.init).1 0 = some "" ∧
    pyTruthy (CorrelationID.get ((CorrelationID.mk (some "")).set none 0
      LocalWithValueField.init).1 0) = false ∧
    pyTruthy (CorrelationID.get ((CorrelationID.mk (some "")).set (some "") 0
      LocalWithValueField.init).1 0) = false :=
  c10_falsy_generator_stored_verbatim ⟨some ""⟩ 0 LocalWithValueField.init (by decide)

/-! ## JSON string-escaping lemmas -/

theorem hexDigitVal_hexChar {k : Nat} (h : k < 16) : hexDigitVal (hexChar k) = some k := by
  interval_cases k <;> rfl

theorem hex4Val_hex4 {n : Nat} (h : n < 65536) :
    hex4Val (hexChar (n / 4096 % 16)) (hexChar (n / 256 % 16)) (hexChar (n / 16 % 16))
      (hexChar (n % 16)) = some n := by
  have h1 : n / 4096 % 16 < 16 := by omega
  have h2 : n / 256 % 16 < 16 := by omega
  have h3 : n / 16 % 16 < 16 := by omega
  have h4 : n % 16 < 16 := by omega
  have key : 4096 * (n / 4096 % 16) + 256 * (n / 256 % 16) + 16 * (n / 16 % 16) + n % 16 = n := by
    omega
  simp only [hex4Val, hexDigitVal_hexChar h1, hexDigitVal_hexChar h2, hexDigitVal_hexChar h3,
    hexDigitVal_hexChar h4, bind, Option.some_bind, key]

theorem char_valid_nat (c : Char) :
    c.toNat < 55296 ∨ (57343 < c.toNat ∧ c.toNat < 1114112) := c.valid

theorem hexChar_ascii {k : Nat} (h : k < 16) :
    32 ≤ (hexChar k).toNat ∧ (hexChar k).toNat ≤ 126 := by
  interval_cases k <;> decide

theorem mem_hex4_ascii {x : Char} {n : Nat} (hx : x ∈ hex4 n) :
    32 ≤ x.toNat ∧ x.toNat ≤ 126 := by
  simp only [hex4, List.mem_cons, List.not_mem_nil, or_false] at hx
  rcases hx with rfl | rfl | rfl | rfl <;> exact hexChar_ascii (by omega)

theorem escChar_ascii (c x : Char) (hx : x ∈ escChar c) :
    32 ≤ x.toNat ∧ x.toNat ≤ 126 := by
  simp only [escChar] at hx
  split_ifs at hx with h1 h2 h3 h4 h5 h6 h7 h8 h9
  · simp only [List.mem_cons, List.not_mem_nil, or_false] at hx
    rcases hx with rfl | rfl <;> decide
  · simp only [List.mem_cons, List.not_mem_nil, or_false] at hx
    rcases hx with rfl | rfl <;> decide
  · simp only [List.mem_cons, List.not_mem_nil, or_false] at hx
    rcases hx with rfl | rfl <;> decide
  · simp only [List.mem_cons, List.not_mem_nil, or_false] at hx
    rcases hx with rfl | rfl <;> decide
  · simp only [List.mem_cons, List.not_mem_nil, or_false] at hx
    rcases hx with rfl | rfl <;> decide
  · simp only [List.mem_cons, List.not_mem_nil, or_false] at hx
    rcases hx with rfl | rfl <;> decide
  · simp only [List.mem_cons, List.not_mem_nil, or_false] at hx
    rcases hx with rfl | rfl <;> decide
  · simp only [List.mem_cons] at hx
    rcases hx with rfl | rfl | hx
    · decide
    · decide
    · exact mem_hex4_ascii hx
  · simp only [List.mem_cons, List.mem_append] at hx
    rcases hx with (rfl | rfl | hx) | (rfl | rfl | hx) <;>
      first | decide | exact mem_hex4_ascii hx
  · simp only [List.mem_singleton] at hx
    subst hx
    exact ⟨by omega, by omega⟩

theorem flatMap_escChar_ascii (s : List Char) (x : Char) (hx : x ∈ s.flatMap escChar) :
    32 ≤ x.toNat ∧ x.toNat ≤ 126 := by
  simp only [List.mem_flatMap] at hx
  obtain ⟨c, _, hc⟩ := hx
  exact escChar_ascii c x hc

theorem combine_bmp (n : Nat) (rest : List Nat)
    (hns1 : ¬(55296 ≤ n ∧ n < 56320)) (hns2 : ¬(56320 ≤ n ∧ n < 57344)) :
    combineSurrogates (n :: rest) = (combineSurrogates rest).map (Char.ofNat n :: ·) := by
  cases rest with
  | nil => simp [combineSurrogates, hns1, hns2]
  | cons m rest2 => simp [combineSurrogates, hns1, hns2]

theorem combine_pair (n m : Nat) (rest : List Nat)
    (h1 : 55296 ≤ n ∧ n < 56320) (h2 : 56320 ≤ m ∧ m < 57344) :
    combineSurrogates (n :: m :: rest) =
      (combineSurrogates rest).map
        (Char.ofNat (65536 + (n - 55296) * 1024 + (m - 56320)) :: ·) := by
  simp only [combineSurrogates]
  rw [if_pos h1, if_pos h2]

theorem combineSurrogates_unitsOf (c : Char) (u : List Nat) :
    combineSurrogates (unitsOf c ++ u) = (combineSurrogates u).map (c :: ·) := by
  by_cases h : c.toNat < 65536
  · have e : unitsOf c = [c.toNat] := if_pos h
    have hns1 : ¬(55296 ≤ c.toNat ∧ c.toNat < 56320) := by
      rcases char_valid_nat c with hv | hv <;> omega
    have hns2 : ¬(56320 ≤ c.toNat ∧ c.toNat < 57344) := by
      rcases char_valid_nat c with hv | hv <;> omega
    rw [e, List.singleton_append, combine_bmp _ _ hns1 hns2, Char.ofNat_toNat]
  · have hv : c.toNat < 1114112 := by
      rcases char_valid_nat c with hv | hv <;> omega
    have e : unitsOf c =
        [55296 + (c.toNat - 65536) / 1024, 56320 + (c.toNat - 65536) % 1024] := if_neg h
    have hs1 : 55296 ≤ 55296 + (c.toNat - 65536) / 1024 ∧
        55296 + (c.toNat - 65536) / 1024 < 56320 := by omega
    have hs2 : 56320 ≤ 56320 + (c.toNat - 65536) % 1024 ∧
        56320 + (c.toNat - 65536) % 1024 < 57344 := by omega
    have harg : 65536 + (55296 + (c.toNat - 65536) / 1024 - 55296) * 1024 +
        (56320 + (c.toNat - 65536) % 1024 - 56320) = c.toNat := by omega
    rw [e]
    simp only [List.cons_append, List.nil_append]
    rw [combine_pair _ _ _ hs1 hs2, harg, Char.ofNat_toNat]

theorem combineSurrogates_flatMap (l : List Char) :
    combineSurrogates (l.flatMap unitsOf) = some l := by
  induction l with
  | nil => rfl
  | cons c cs ih =>
    rw [List.flatMap_cons, combineSurrogates_unitsOf, ih]
    rfl

theorem unescUnits_escChar (c : Char) (t : List Char) :
    unescUnits (escChar c ++ t) = (unescUnits t).map (fun u => unitsOf c ++ u) := by
  by_cases h1 : c = '"'
  · subst h1; rfl
  by_cases h2 : c = '\\'
  · subst h2; rfl
  by_cases h3 : c = '\n'
  · subst h3; rfl
  by_cases h4 : c = '\r'
  · subst h4; rfl
  by_cases h5 : c = '\t'
  · subst h5; rfl
  by_cases h6 : c.toNat = 8
  · have hc : c = Char.ofNat 8 := by rw [← h6]; exact (Char.ofNat_toNat c).symm
    subst hc; rfl
  by_cases h7 : c.toNat = 12
  · have hc : c = Char.ofNat 12 := by rw [← h7]; exact (Char.ofNat_toNat c).symm
    subst hc; rfl
  by_cases h8 : c.toNat < 32 ∨ 126 < c.toNat
  · by_cases h9 : c.toNat < 65536
    · have hesc : escChar c = '\\' :: 'u' :: hex4 c.toNat := by
        simp only [escChar, if_neg h1, if_neg h2, if_neg h3, if_neg h4, if_neg h5,
          if_neg h6, if_neg h7, if_pos h8, if_pos h9]
      have hu : unitsOf c = [c.toNat] := if_pos h9
      rw [hesc, hu]
      simp [hex4, unescUnits, hex4Val_hex4 h9]
    · have hesc : escChar c = '\\' :: 'u' :: hex4 (55296 + (c.toNat - 65536) / 1024) ++
          '\\' :: 'u' :: hex4 (56320 + (c.toNat - 65536) % 1024) := by
        simp only [escChar, if_neg h1, if_neg h2, if_neg h3, if_neg h4, if_neg h5,
          if_neg h6, if_neg h7, if_pos h8, if_neg h9]
      have hu : unitsOf c =
          [55296 + (c.toNat - 65536) / 1024, 56320 + (c.toNat - 65536) % 1024] := if_neg h9
      have hv : c.toNat < 1114112 := by
        rcases char_valid_nat c with hv | hv <;> omega
      have hhi : 55296 + (c.toNat - 65536) / 1024 < 65536 := by omega
      have hlo : 56320 + (c.toNat - 65536) % 1024 < 65536 := by omega
      rw [hesc, hu]
      simp [hex4, unescUnits, hex4Val_hex4 hhi, hex4Val_hex4 hlo, Option.map_map,
        Function.comp]
      rfl
  · have hesc : escChar c = [c] := by
      simp only [escChar, if_neg h1, if_neg h2, if_neg h3, if_neg h4, if_neg h5,
        if_neg h6, if_neg h7, if_neg h8]
    have h9 : c.toNat < 65536 := by omega
    have hu : unitsOf c = [c.toNat] := if_pos h9
    rw [hesc, hu, List.singleton_append, unescUnits.eq_def]
    show (if c = '\\' then _ else (unescUnits t).map (c.toNat :: ·)) = _
    rw [if_neg h2]
    rfl

theorem unescUnits_flatMap (l : List Char) :
    unescUnits (l.flatMap escChar) = some (l.flatMap unitsOf) := by
  induction l with
  | nil => rfl
  | cons c cs ih =>
    rw [List.flatMap_cons, unescUnits_escChar, ih, List.flatMap_cons]
    rfl

theorem unescChars_flatMap_escChar (l : List Char) :
    unescChars (l.flatMap escChar) = some l := by
  rw [unescChars, unescUnits_flatMap]
  simpa using combineSurrogates_flatMap l

/-! ## Claim C4 -/

/-- C4: an exception-valued field is encoded as a single JSON string — never
a structured object — whose content is the platform's full formatted trace
(`extract_stacktrace`, i.e. the joined `TracebackException.format` lines,
chained causes included); dumping a string value emits the escaped text
between quotes, where every character of the escaped body is printable ASCII
(so every embedded line terminator has been escaped away) and the escaping
is invertible, so embedded quotes are recoverably escaped as well. -/
theorem c4_exception_encoded_as_trace_string (e : PyException) (s : String) :
    toJVal (.pyExc e) = .ok (.str (extract_stacktrace e)) ∧
    jdump (.str s) = String.mk ('"' :: s.data.flatMap escChar ++ ['"']) ∧
    (∀ x ∈ s.data.flatMap escChar, 32 ≤ x.toNat ∧ x.toNat ≤ 126) ∧
    unescChars (s.data.flatMap escChar) = some s.data :=
  ⟨rfl, rfl, fun x hx => flatMap_escChar_ascii s.data x hx,
    unescChars_flatMap_escChar s.data⟩

/-- Witness for C4 at a concrete exception and a string with a quote and a
line terminator. -/
theorem c4_exception_encoded_as_trace_string_witness :
    toJVal (.pyExc ⟨["Traceback (most recent call last):\n", "Exception: first\n"]⟩) =
      .ok (.str "Traceback (most recent call last):\nException: first\n") ∧
    unescChars (("a\"b\nc").data.flatMap escChar) = some ("a\"b\nc").data := by
  have h := c4_exception_encoded_as_trace_string
    ⟨["Traceback (most recent call last):\n", "Exception: first\n"]⟩ "a\"b\nc"
  exact ⟨h.1, h.2.2.2⟩

/-! ## Claim C1 -/

/-- C1: the serialized metadata has the `correlation_id` key exactly when a
`CorrelationID` was supplied at construction; when supplied but never set in
the calling thread the value is `None` (JSON `null`), and when the calling
thread last set a non-empty value `v` the value is `v`. -/
theorem c1_correlation_id_key (logger : EventLogger) (event : Event)
    (st : LocalWithValueField) (t : ThreadId) :
    ((logger.metadataOf event st t).lookup "correlation_id").isSome =
      logger.correlation_id.isSome ∧
    (logger.correlation_id.isSome → CorrelationID.get st t = none →
      (logger.metadataOf event st t).lookup "correlation_id" = some PyVal.pyNone) ∧
    (∀ (cid : CorrelationID) (v : String), logger.correlation_id = some cid → v ≠ "" →
      (logger.metadataOf event ((cid.set (some v) t st).1) t).lookup "correlation_id" =
        some (PyVal.pyStr v)) := by
  obtain ⟨cidOpt, clock⟩ := logger
  refine ⟨?_, ?_, ?_⟩
  · cases cidOpt with
    | none => simp [EventLogger.metadataOf, List.lookup]
    | some cid =>
      cases hg : CorrelationID.get st t <;>
        simp [EventLogger.metadataOf, List.lookup, hg]
  · intro hsome hnone
    cases cidOpt with
    | none => simp at hsome
    | some cid => simp [EventLogger.metadataOf, List.lookup, hnone]
  · intro cid v hcid hv
    simp only at hcid
    subst hcid
    have hget : CorrelationID.get (cid.set (some v) t st).1 t = some v := by
      simp [CorrelationID.set, CorrelationID.get, pyTruthy, LocalWithValueField.store, hv]
    simp [EventLogger.metadataOf, List.lookup, hget]

/-- Witness for C1: a logger with a configured `CorrelationID` shows the key
as `null` before any `set` and as the set value afterwards. -/
theorem c1_correlation_id_key_witness :
    ((EventLogger.metadataOf ⟨some ⟨some "gen"⟩, ⟨testDatetime⟩⟩ testEvent
        LocalWithValueField.init 0).lookup "correlation_id") = some PyVal.pyNone ∧
    ((EventLogger.metadataOf ⟨some ⟨some "gen"⟩, ⟨testDatetime⟩⟩ testEvent
        ((CorrelationID.mk (some "gen")).set (some "correlation id") 0
          LocalWithValueField.init).1 0).lookup "correlation_id") =
      some (PyVal.pyStr "correlation id") := by
  have h1 := c1_correlation_id_key ⟨some ⟨some "gen"⟩, ⟨testDatetime⟩⟩ testEvent
    LocalWithValueField.init 0
  exact ⟨h1.2.1 rfl rfl, h1.2.2 ⟨some "gen"⟩ "correlation id" rfl (by decide)⟩

/-! ## Claim C5 -/

/-- C5: a value of a type with no encoding rule makes the encoder fail with
the `TypeError` from `json.JSONEncoder.default` (the spec's EncodingError),
and `log` — which has no handler around `json.dumps` — propagates exactly
that error to its caller and writes nothing. -/
theorem c5_unencodable_type_raises (name : String) (logger : EventLogger)
    (event : Event) (st : LocalWithValueField) (t : ThreadId) (output : String)
    (err : EncodingError) :
    toJVal (.pyOther name) = .error ⟨name⟩ ∧
    (dumps (logger.asJson event st t) = .error err →
      TextStreamEventLogger.log logger event st t output = .error err) := by
  refine ⟨rfl, ?_⟩
  intro h
  simp [TextStreamEventLogger.log, h]

/-- Witness for C5: logging an event holding a value with no encoding rule
surfaces the error synchronously. -/
theorem c5_unencodable_type_raises_witness :
    TextStreamEventLogger.log testLogger ⟨"BadEvent", [("obj", .pyOther "object")]⟩
      LocalWithValueField.init 0 "" = .error ⟨"object"⟩ :=
  (c5_unencodable_type_raises "object" testLogger
    ⟨"BadEvent", [("obj", .pyOther "object")]⟩
    LocalWithValueField.init 0 "" ⟨"object"⟩).2 rfl

/-! ## Claim C6 -/

/-- C6, counterexample: the worked example writes the line with `json.dumps`'s
default separators `", "` and `": "`, which differs byte-for-byte from the
compact line the claim states. -/
theorem c6_example_line_counterexample :
    TextStreamEventLogger.log testLogger testEvent LocalWithValueField.init 0 "" =
      .ok actualExampleLine ∧
    actualExampleLine ≠ claimedExampleLine :=
  ⟨rfl, by decide⟩

/-- C6, amended: logging `TestEvent(value="str")` with the fixed clock and no
`CorrelationID` writes exactly the same JSON document with `json.dumps`'s
default separators (a space after each `:` and `,`), followed by exactly one
line terminator. -/
theorem c6_example_line_amended :
    TextStreamEventLogger.log testLogger testEvent LocalWithValueField.init 0 "" =
      .ok actualExampleLine ∧
    actualExampleLine.data.count '\n' = 1 :=
  ⟨rfl, by decide⟩

/-! ## Claim C9 -/

/-- C9: `log` (through `asJson`) only reads the event and the logger — no
statement in either assigns to an attribute of the event or of the logger —
so the event's field mapping and the logger's own state after the call are
the ones passed in; the logger's state holds no part of the event, so no
reference to it is retained past the call. -/
theorem c9_log_does_not_mutate_event (logger : EventLogger) (event : Event)
    (st : LocalWithValueField) (t : ThreadId) (output : String) :
    (TextStreamEventLogger.logFull logger event st t output).2.1 = event ∧
    (TextStreamEventLogger.logFull logger event st t output).2.2 = logger ∧
    ((TextStreamEventLogger.logFull logger event st t output).2.1).fields =
      event.fields :=
  ⟨rfl, rfl, rfl⟩

end EventLogging
